import Mathlib

/-!
Shallow embedding of the OData_Conv query adapter
(`src/index.js` and `src/unnamed/part_000`).

The program is a Node/Express read-only OData proxy. Its engine consists of
`normalizeItem` (type normalizer), `parseSimpleFilter` (single-clause
`$filter` parser built from three anchored regexes), and the query pipeline
in the `/odata/Transactions` handler (filter, sort, skip, top, count).

Modelling choices:
- JavaScript numbers are idealized as exact rationals plus the NaN and
  ±Infinity sentinels (`JsNum`); the program only manipulates numbers coming
  from JSON literals and decimal query strings, and no claim depends on
  binary floating-point rounding.
- JSON scalar values are modelled (`JValue`); nested objects/arrays never
  feed the comparisons the claims are about.
- `Number(string)` is modelled for decimal, hex/octal/binary and Infinity
  literals per the ECMAScript StringNumericLiteral grammar.
- `Array.prototype.sort` with a comparator is modelled as a stable
  comparison sort (ES2019 requires sort stability).
-/

namespace ODataConv

/-- A JavaScript number: NaN, ±Infinity, or a finite value (idealized as ℚ). -/
inductive JsNum where
  | nan
  | inf
  | negInf
  | num (q : ℚ)
deriving DecidableEq

/-- A JavaScript scalar value as it appears in the adapter's data flow. -/
inductive JValue where
  | undefined
  | null
  | bool (b : Bool)
  | num (n : JsNum)
  | str (s : String)
deriving DecidableEq

/-- A record is a JS object: an ordered association list of fields
(`normalizeItem` builds these with an object literal). -/
abbrev Record := List (String × JValue)

/-- JS property access `r[k]`: the field's value, or `undefined` if absent. -/
def getField (r : Record) (k : String) : JValue :=
  match r.find? (fun p => p.1 == k) with
  | some p => p.2
  | none => .undefined

/-- The apostrophe character, delimiting string literals in the filter grammar. -/
def quoteChar : Char := Char.ofNat 39

/-- ECMAScript WhiteSpace ∪ LineTerminator (the `\s` class and `trim`). -/
def isSpaceJs (c : Char) : Bool :=
  c == ' ' || c == '\t' || c == '\n' || c == '\r' ||
  c.toNat == 0x0b || c.toNat == 0x0c || c.toNat == 0xa0 || c.toNat == 0x1680 ||
  (0x2000 ≤ c.toNat && c.toNat ≤ 0x200a) ||
  c.toNat == 0x2028 || c.toNat == 0x2029 || c.toNat == 0x202f ||
  c.toNat == 0x205f || c.toNat == 0x3000 || c.toNat == 0xfeff

/-- The regex `\w` class: ASCII letters, digits, underscore. -/
def isWordChar (c : Char) : Bool :=
  c.isAlpha || c.isDigit || c == '_'

/-- `String.prototype.trim`: strip leading and trailing whitespace. -/
def trimJs (cs : List Char) : List Char :=
  ((cs.dropWhile isSpaceJs).reverse.dropWhile isSpaceJs).reverse

/-- `String.prototype.split` with a one-character separator
(`"".split(" ")` is `[""]`, and separators at the ends produce empty pieces). -/
def splitChar (sep : Char) : List Char → List (List Char)
  | [] => [[]]
  | c :: cs =>
    if c == sep then [] :: splitChar sep cs
    else
      match splitChar sep cs with
      | [] => [[c]]
      | g :: gs => (c :: g) :: gs

/-- Numeric value of a decimal digit character. -/
def digitVal (c : Char) : Nat := c.toNat - 48

/-- Value of a string of decimal digits. -/
def digitsToNat (ds : List Char) : Nat :=
  ds.foldl (fun a c => 10 * a + digitVal c) 0

/-- Hexadecimal digit test. -/
def isHexDigitJs (c : Char) : Bool :=
  c.isDigit || ('a' ≤ c && c ≤ 'f') || ('A' ≤ c && c ≤ 'F')

/-- Numeric value of a hexadecimal digit character. -/
def hexVal (c : Char) : Nat :=
  if c.isDigit then digitVal c
  else if 'a' ≤ c && c ≤ 'f' then c.toNat - 97 + 10
  else c.toNat - 65 + 10

/-- Value of a digit string in a given radix. -/
def radixToNat (r : Nat) (val : Char → Nat) (ds : List Char) : Nat :=
  ds.foldl (fun a c => r * a + val c) 0

/-- Rational multiplication written through `mkRat`, so that concrete values
evaluate inside the kernel (the library's `Rat.mul` is irreducible). -/
def qMul (a b : ℚ) : ℚ := mkRat (a.num * b.num) (a.den * b.den)

/-- Rational addition written through `mkRat` (see `qMul`). -/
def qAdd (a b : ℚ) : ℚ := mkRat (a.num * (b.den : Int) + b.num * (a.den : Int)) (a.den * b.den)

/-- Rational subtraction written through `mkRat` (see `qMul`). -/
def qSub (a b : ℚ) : ℚ := qAdd a (-b)

/-- The rational `10 ^ e` for an integer exponent, through `mkRat`. -/
def pow10 (e : Int) : ℚ :=
  if e < 0 then mkRat 1 (10 ^ e.natAbs) else mkRat ((10 : Int) ^ e.natAbs) 1

/-- Optional exponent suffix of a decimal literal: `e`/`E`, optional sign,
one or more digits, at the end of the string. Empty input means exponent 0. -/
def parseExpPart : List Char → Option Int
  | [] => some 0
  | c :: cs =>
    if c == 'e' || c == 'E' then
      match cs with
      | '+' :: ds =>
        if !ds.isEmpty && ds.all Char.isDigit then some (digitsToNat ds) else none
      | '-' :: ds =>
        if !ds.isEmpty && ds.all Char.isDigit then some (-(digitsToNat ds : Int)) else none
      | ds =>
        if !ds.isEmpty && ds.all Char.isDigit then some (digitsToNat ds) else none
    else none

/-- An unsigned decimal literal per StrUnsignedDecimalLiteral:
`digits [. digits] [exp]`, `. digits [exp]`. -/
def parseUnsignedDec (cs : List Char) : Option ℚ :=
  let p := cs.span Char.isDigit
  if p.1.isEmpty then
    match p.2 with
    | '.' :: r2 =>
      let pf := r2.span Char.isDigit
      if pf.1.isEmpty then none
      else
        match parseExpPart pf.2 with
        | some e => some (qMul (mkRat (digitsToNat pf.1 : Int) (10 ^ pf.1.length)) (pow10 e))
        | none => none
    | _ => none
  else
    match p.2 with
    | '.' :: r2 =>
      let pf := r2.span Char.isDigit
      match parseExpPart pf.2 with
      | some e =>
        some (qMul
          (mkRat ((digitsToNat p.1 : Int) * 10 ^ pf.1.length + (digitsToNat pf.1 : Int))
            (10 ^ pf.1.length))
          (pow10 e))
      | none => none
    | r1 =>
      match parseExpPart r1 with
      | some e => some (qMul (mkRat (digitsToNat p.1 : Int) 1) (pow10 e))
      | none => none

/-- Signed decimal literal or signed `Infinity`. -/
def parseSignedDec (cs : List Char) : JsNum :=
  let body : List Char → Bool → JsNum := fun r neg =>
    if r = "Infinity".data then (if neg then .negInf else .inf)
    else
      match parseUnsignedDec r with
      | some q => .num (if neg then -q else q)
      | none => .nan
  match cs with
  | '+' :: t => body t false
  | '-' :: t => body t true
  | t => body t false

/-- JS `Number(string)` (ToNumber on a string): trim, empty string is 0,
then a StringNumericLiteral (decimal with optional sign/fraction/exponent,
signed Infinity, or unsigned `0x`/`0o`/`0b` literals); anything else is NaN. -/
def strToNumber (s : String) : JsNum :=
  let cs := trimJs s.data
  match cs with
  | [] => .num 0
  | '0' :: x :: rest =>
    if x == 'x' || x == 'X' then
      if !rest.isEmpty && rest.all isHexDigitJs
      then .num (mkRat (radixToNat 16 hexVal rest : Int) 1) else .nan
    else if x == 'o' || x == 'O' then
      if !rest.isEmpty && rest.all (fun c => '0' ≤ c && c ≤ '7')
      then .num (mkRat (radixToNat 8 digitVal rest : Int) 1) else .nan
    else if x == 'b' || x == 'B' then
      if !rest.isEmpty && rest.all (fun c => c == '0' || c == '1')
      then .num (mkRat (radixToNat 2 digitVal rest : Int) 1) else .nan
    else parseSignedDec cs
  | _ => parseSignedDec cs

/-- JS ToNumber on a scalar value (`Number(v)`). -/
def jsToNumber (v : JValue) : JsNum :=
  match v with
  | .undefined => .nan
  | .null => .num 0
  | .bool b => .num (if b then 1 else 0)
  | .num n => n
  | .str s => strToNumber s

/-- Decimal digits of a fraction in `[0,1)`, with fuel (every number the
program builds has a terminating decimal expansion; JS shortest-roundtrip
double printing and the exponential-notation switch are not modelled). -/
def fracDigits : Nat → ℚ → String
  | 0, _ => ""
  | fuel + 1, q =>
    if q = 0 then ""
    else
      let r := qMul q (mkRat 10 1)
      let d := r.floor.toNat
      Nat.repr d ++ fracDigits fuel (qSub r (mkRat (d : Int) 1))

/-- Decimal notation of a nonnegative rational. -/
def ratToDecimal (q : ℚ) : String :=
  let ip := q.floor.toNat
  let frac := qSub q (mkRat (ip : Int) 1)
  if frac = 0 then Nat.repr ip else Nat.repr ip ++ "." ++ fracDigits 1100 frac

/-- JS number-to-string conversion. -/
def numToString (n : JsNum) : String :=
  match n with
  | .nan => "NaN"
  | .inf => "Infinity"
  | .negInf => "-Infinity"
  | .num q => if q < 0 then "-" ++ ratToDecimal (-q) else ratToDecimal q

/-- JS ToString on a scalar value (`String(v)`). -/
def jsToString (v : JValue) : String :=
  match v with
  | .undefined => "undefined"
  | .null => "null"
  | .bool b => if b then "true" else "false"
  | .num n => numToString n
  | .str s => s

/-- Strict order on JS numbers (`<` after ToNumber); false whenever NaN is involved. -/
def jsNumLt (a b : JsNum) : Bool :=
  match a, b with
  | .nan, _ => false
  | _, .nan => false
  | .negInf, .negInf => false
  | .negInf, _ => true
  | _, .negInf => false
  | .inf, _ => false
  | .num _, .inf => true
  | .num x, .num y => decide (x < y)

/-- JS abstract relational comparison `a < b` on scalar values:
both strings compare lexicographically, otherwise both are converted
to numbers (NaN makes the comparison false). -/
def jsLt (a b : JValue) : Bool :=
  match a, b with
  | .str s1, .str s2 => decide (s1 < s2)
  | a, b => jsNumLt (jsToNumber a) (jsToNumber b)

/-- The value carried by a parsed filter predicate. -/
inductive FVal where
  | str (s : String)
  | num (q : ℚ)
deriving DecidableEq

/-- The three predicate kinds of the filter grammar. -/
inductive FType where
  | string
  | number
  | date
deriving DecidableEq

/-- The structure `parseSimpleFilter` returns: `{field, value, type}`. -/
structure ParsedFilter where
  field : String
  value : FVal
  type : FType
deriving DecidableEq

/-- The shared beginning of all three filter regexes:
`^([\w\d_]+)\s+eq\s+`; returns the captured field and the rest of the input.
Maximal munch coincides with the regexes' backtracking here because a shorter
field (or space run) would put a word (or space) character where the next
regex element forbids one. -/
def parseFieldEq (cs : List Char) : Option (String × List Char) :=
  let pw := cs.span isWordChar
  if pw.1.isEmpty then none
  else
    let ps1 := pw.2.span isSpaceJs
    if ps1.1.isEmpty then none
    else
      match ps1.2 with
      | 'e' :: 'q' :: r3 =>
        let ps2 := r3.span isSpaceJs
        if ps2.1.isEmpty then none else some (pw.1.asString, ps2.2)
      | _ => none

/-- The regex `^([\w\d_]+)\s+eq\s+'([^']*)'$` (quoted-string form). -/
def matchStringForm (cs : List Char) : Option (String × String) :=
  match parseFieldEq cs with
  | none => none
  | some (f, r) =>
    match r with
    | c :: r2 =>
      if c == quoteChar then
        let pv := r2.span (fun d => d != quoteChar)
        match pv.2 with
        | [d] => if d == quoteChar then some (f, pv.1.asString) else none
        | _ => none
      else none
    | _ => none

/-- The regex `^([\w\d_]+)\s+eq\s+([+-]?\d+(\.\d+)?)$` (number form); the
value is JS `Number` of the matched literal, computed directly. -/
def matchNumberForm (cs : List Char) : Option (String × ℚ) :=
  match parseFieldEq cs with
  | none => none
  | some (f, r) =>
    let sr : Int × List Char :=
      match r with
      | '+' :: t => (1, t)
      | '-' :: t => (-1, t)
      | t => (1, t)
    let pd := sr.2.span Char.isDigit
    if pd.1.isEmpty then none
    else
      match pd.2 with
      | [] => some (f, mkRat (sr.1 * (digitsToNat pd.1 : Int)) 1)
      | '.' :: r3 =>
        let pf := r3.span Char.isDigit
        if pf.1.isEmpty then none
        else
          match pf.2 with
          | [] =>
            some (f, mkRat
              (sr.1 * ((digitsToNat pd.1 : Int) * 10 ^ pf.1.length + (digitsToNat pf.1 : Int)))
              (10 ^ pf.1.length))
          | _ => none
      | _ => none

/-- The regex `^([\w\d_]+)\s+eq\s+(\d{4}-\d{2}-\d{2})$` (date form). -/
def matchDateForm (cs : List Char) : Option (String × String) :=
  match parseFieldEq cs with
  | none => none
  | some (f, r) =>
    match r with
    | y1 :: y2 :: y3 :: y4 :: '-' :: m1 :: m2 :: '-' :: d1 :: d2 :: [] =>
      if [y1, y2, y3, y4, m1, m2, d1, d2].all Char.isDigit then
        some (f, List.asString [y1, y2, y3, y4, '-', m1, m2, '-', d1, d2])
      else none
    | _ => none

/-- `parseSimpleFilter`: falsy input (absent or empty) is `null`; otherwise
the trimmed string is tried against the three regexes in priority order,
and a non-match of all three is `null`. -/
def parseSimpleFilter (filter : Option String) : Option ParsedFilter :=
  match filter with
  | none => none
  | some s =>
    if s = "" then none
    else
      let t := trimJs s.data
      match matchStringForm t with
      | some fv => some ⟨fv.1, .str fv.2, .string⟩
      | none =>
        match matchNumberForm t with
        | some fq => some ⟨fq.1, .num fq.2, .number⟩
        | none =>
          match matchDateForm t with
          | some fv => some ⟨fv.1, .str fv.2, .date⟩
          | none => none

/-- The string of a predicate value (predicates built by the parser carry a
string for the string and date kinds, a number for the number kind). -/
def fvalToString (v : FVal) : String :=
  match v with
  | .str s => s
  | .num q => numToString (.num q)

/-- JS strict equality `Number(val) === parsedFilter.value`: true only when
both sides are finite numbers with the same value (NaN equals nothing, a
number never strictly equals a string). -/
def jsStrictEqNum (n : JsNum) (v : FVal) : Bool :=
  match n, v with
  | .num x, .num q => x == q
  | _, _ => false

/-- List version of `String.prototype.startsWith`: first argument is the
pattern searched for at the front of the second. -/
def startsWithL : List Char → List Char → Bool
  | [], _ => true
  | _ :: _, [] => false
  | p :: ps, c :: cs => p == c && startsWithL ps cs

/-- The filter callback of the `/odata/Transactions` handler:
number predicates compare `Number(val)` strictly, date predicates test
`String(val).startsWith(value)`, string predicates compare `String(val)`
strictly. -/
def matchesFilter (pf : ParsedFilter) (r : Record) : Bool :=
  let val := getField r pf.field
  match pf.type with
  | .number => jsStrictEqNum (jsToNumber val) pf.value
  | .date => startsWithL (fvalToString pf.value).data (jsToString val).data
  | .string => jsToString val == fvalToString pf.value

/-- Stable insert for a JS comparator (negative means the first argument
sorts earlier; on ties the earlier element stays first). -/
def insertCmp (c : α → α → Int) (x : α) : List α → List α
  | [] => [x]
  | y :: ys => if c x y ≤ 0 then x :: y :: ys else y :: insertCmp c x ys

/-- `Array.prototype.sort` with a comparator, modelled as a stable
comparison sort (stability is required by ES2019). -/
def sortCmp (c : α → α → Int) : List α → List α
  | [] => []
  | x :: xs => insertCmp c x (sortCmp c xs)

/-- The `$orderby` comparator: `a[field] > b[field]` gives `dir`,
`a[field] < b[field]` gives `-dir`, ties give 0. -/
def cmpByField (field : String) (dir : Int) (a b : Record) : Int :=
  if jsLt (getField b field) (getField a field) then dir
  else if jsLt (getField a field) (getField b field) then -dir
  else 0

/-- Truncation toward zero (ToIntegerOrInfinity on a finite number). -/
def truncRat (q : ℚ) : Int :=
  if q < 0 then -((-q).floor) else q.floor

/-- The index `Array.prototype.slice` derives from one numeric argument:
NaN and -Infinity clamp to 0, +Infinity to the length, a negative value is
taken from the end, and the result is clamped into `[0, len]`. -/
def sliceBound (n : JsNum) (len : Nat) : Nat :=
  match n with
  | .nan => 0
  | .negInf => 0
  | .inf => len
  | .num q =>
    let i := truncRat q
    if i < 0 then ((len : Int) + i).toNat else min i.toNat len

/-- `items.slice(Number(s))`: drop the leading elements up to the start index. -/
def jsSliceDrop (n : JsNum) (l : List α) : List α :=
  l.drop (sliceBound n l.length)

/-- `items.slice(0, Number(s))`: keep the leading elements up to the end index. -/
def jsSliceTake (n : JsNum) (l : List α) : List α :=
  l.take (sliceBound n l.length)

/-- The `$filter` stage: apply the parsed predicate if one was produced. -/
def applyFilterStr (f : Option String) (items : List Record) : List Record :=
  match parseSimpleFilter f with
  | some pf => items.filter (matchesFilter pf)
  | none => items

/-- The `$orderby` stage: on a truthy spec, split on `" "`, take the first
piece as the field, and sort descending exactly when the second piece is
the string `"desc"`. -/
def applyOrder (ob : Option String) (items : List Record) : List Record :=
  match ob with
  | none => items
  | some s =>
    if s = "" then items
    else
      let parts := (splitChar ' ' s.data).map List.asString
      let dirv : Int := if parts[1]? = some "desc" then -1 else 1
      sortCmp (cmpByField (parts.headD "") dirv) items

/-- The `$skip` stage: on a truthy raw value, `items.slice(Number(s))`. -/
def applySkip (sk : Option String) (items : List Record) : List Record :=
  match sk with
  | none => items
  | some s => if s = "" then items else jsSliceDrop (strToNumber s) items

/-- The `$top` stage: on a truthy raw value, `items.slice(0, Number(s))`. -/
def applyTop (tp : Option String) (items : List Record) : List Record :=
  match tp with
  | none => items
  | some s => if s = "" then items else jsSliceTake (strToNumber s) items

/-- The query pipeline of the `/odata/Transactions` handler, as the source
writes it: filter, then orderby, then skip, then top, sequentially. -/
def runQuery (f ob sk tp : Option String) (items0 : List Record) : List Record :=
  let items1 :=
    match parseSimpleFilter f with
    | some pf => items0.filter (matchesFilter pf)
    | none => items0
  let items2 :=
    match ob with
    | none => items1
    | some s =>
      if s = "" then items1
      else
        let parts := (splitChar ' ' s.data).map List.asString
        let dirv : Int := if parts[1]? = some "desc" then -1 else 1
        sortCmp (cmpByField (parts.headD "") dirv) items1
  let items3 :=
    match sk with
    | none => items2
    | some s => if s = "" then items2 else jsSliceDrop (strToNumber s) items2
  match tp with
  | none => items3
  | some s => if s = "" then items3 else jsSliceTake (strToNumber s) items3

/-- The `@odata.count` field: present with the final result-set length
exactly when the raw `$count` value is the string `"true"`. -/
def odataCount (c : Option String) (items : List Record) : Option Nat :=
  if c = some "true" then some items.length else none

/-- A raw upstream record: an arbitrary mapping from field names to scalar
values (JS property access on a missing key yields `undefined`). -/
abbrev RawItem := String → JValue

/-- The `toNum` helper of `normalizeItem`:
`v === null || v === undefined || v === "" ? null : Number(v)`. -/
def toNum (v : JValue) : JValue :=
  match v with
  | .null => .null
  | .undefined => .null
  | .str "" => .null
  | v => .num (jsToNumber v)

/-- JS `x ?? null`: `undefined` collapses to `null`, all else passes through. -/
def nullish (v : JValue) : JValue :=
  match v with
  | .undefined => .null
  | v => v

/-- `normalizeItem`: the object literal with the 12 declared fields. -/
def normalizeItem (item : RawItem) : Record :=
  [("id", toNum (item "id")),
   ("outlet", nullish (item "outlet")),
   ("date", nullish (item "date")),
   ("day", nullish (item "day")),
   ("guest_count", toNum (item "guest_count")),
   ("category", nullish (item "category")),
   ("quantity", toNum (item "quantity")),
   ("cost_price", toNum (item "cost_price")),
   ("selling_price", toNum (item "selling_price")),
   ("total_sales", toNum (item "total_sales")),
   ("total_cost_price", toNum (item "total_cost_price")),
   ("profit", toNum (item "profit"))]

/-- The declared key list of a normalized Record, in source order. -/
def declaredKeys : List String :=
  ["id", "outlet", "date", "day", "guest_count", "category", "quantity",
   "cost_price", "selling_price", "total_sales", "total_cost_price", "profit"]

/-- The numeric fields (those run through `toNum`). -/
def numericKeys : List String :=
  ["id", "guest_count", "quantity", "cost_price", "selling_price",
   "total_sales", "total_cost_price", "profit"]

/-- Outcome of the upstream fetch as the handler's `try` block observes it:
a response with its status and parsed JSON body (an array of raw items, or
some non-array value), an abort of the bounded timeout, or any other thrown
error (network failure, malformed JSON, ...). -/
inductive UpstreamResult where
  | response (status : Nat) (data : Option (List RawItem))
  | abortError
  | otherError (msg : String)

/-- The JSON body the handler sends. -/
inductive RespBody where
  | odata (value : List Record) (count : Option Nat)
  | jsonError (error : String) (status : Option Nat)

/-- An HTTP response: status code and JSON body (the `@odata.context` URL,
being assembled from transport data of the request, is not modelled). -/
structure HttpResp where
  status : Nat
  body : RespBody

/-- The `/odata/Transactions` handler after the fetch resolves:
`response.ok` (status in 200..299) gates the 500 "Upstream API error"
answer, non-array JSON collapses to `[]`, the pipeline and count run, and
the catch block maps an `AbortError` to 504 and anything else to 500 with
the error's message. -/
def handleTransactions (u : UpstreamResult) (f ob sk tp c : Option String) :
    HttpResp :=
  match u with
  | .response st data =>
    if 200 ≤ st ∧ st < 300 then
      let items := (data.getD []).map normalizeItem
      let items := runQuery f ob sk tp items
      ⟨200, .odata items (odataCount c items)⟩
    else ⟨500, .jsonError "Upstream API error" (some st)⟩
  | .abortError => ⟨504, .jsonError "Upstream timeout" none⟩
  | .otherError msg => ⟨500, .jsonError msg none⟩

/-- Aliasing state of the handler's arrays: the contents of the array built
by `items.map(normalizeItem)`, the contents of the array the `items`
variable currently points to, and whether the two are the same array. -/
structure PipeState where
  normalized : List Record
  current : List Record
  aliased : Bool
deriving DecidableEq

/-- The pipeline with array identity tracked: `filter` and `slice` return
fresh arrays, while `sort` reorders the current array in place (so it also
rewrites the normalized array exactly while `items` still aliases it). -/
def runQueryAlias (f ob sk tp : Option String) (norm : List Record) :
    PipeState :=
  let st0 : PipeState := ⟨norm, norm, true⟩
  let st1 : PipeState :=
    match parseSimpleFilter f with
    | some pf => ⟨st0.normalized, st0.current.filter (matchesFilter pf), false⟩
    | none => st0
  let st2 : PipeState :=
    match ob with
    | none => st1
    | some s =>
      if s = "" then st1
      else
        let parts := (splitChar ' ' s.data).map List.asString
        let dirv : Int := if parts[1]? = some "desc" then -1 else 1
        let sorted := sortCmp (cmpByField (parts.headD "") dirv) st1.current
        ⟨if st1.aliased then sorted else st1.normalized, sorted, st1.aliased⟩
  let st3 : PipeState :=
    match sk with
    | none => st2
    | some s =>
      if s = "" then st2
      else ⟨st2.normalized, jsSliceDrop (strToNumber s) st2.current, false⟩
  match tp with
  | none => st3
  | some s =>
    if s = "" then st3
    else ⟨st3.normalized, jsSliceTake (strToNumber s) st3.current, false⟩

/-- Splitting an order spec at the first whitespace character, as the spec
sentence behind claim C6 words it: the field is everything before the first
whitespace and the direction token everything after it (absent when the
spec has no whitespace). Modelled from the spec for comparison with the
code's `split(" ")`. -/
def splitFirstWs (s : String) : String × Option String :=
  let pw := s.data.span (fun c => !isSpaceJs c)
  match pw.2 with
  | [] => (pw.1.asString, none)
  | _ :: r => (pw.1.asString, some r.asString)

/-- The ordering behavior claim C6 describes, modelled from the spec's
words: sort descending exactly when the after-first-whitespace direction
token is the string `"desc"`. -/
def claimedApplyOrder (spec : String) (items : List Record) : List Record :=
  let fd := splitFirstWs spec
  sortCmp (cmpByField fd.1 (if fd.2 = some "desc" then -1 else 1)) items

/-- A sort direction, for stating the amended ordering claim. -/
inductive SortDir where
  | asc
  | desc
deriving DecidableEq

/-- Sorting a record list on one field in a given direction. -/
def sortByDir (field : String) (d : SortDir) (items : List Record) :
    List Record :=
  sortCmp (cmpByField field (match d with | .asc => 1 | .desc => -1)) items

/-- A minimal record carrying only an `id` field, for concrete test inputs. -/
def mkIdRec (q : ℚ) : Record := [("id", .num (.num q))]

/-- Five records with ids 1..5, the fixed input list of the spec's pipeline
example. -/
def fiveRecs : List Record :=
  [mkIdRec 1, mkIdRec 2, mkIdRec 3, mkIdRec 4, mkIdRec 5]

/-- The sample string-equality filter `outlet eq (quote)Airport(quote)`. -/
def airportFilter : String :=
  "outlet eq " ++ quoteChar.toString ++ "Airport" ++ quoteChar.toString

/-- A raw item whose `id` is the empty string and whose `outlet` is set,
with every other field absent. -/
def item0 : RawItem := fun k =>
  if k = "id" then .str "" else if k = "outlet" then .str "X" else .undefined

/-- A record whose `id` field is null. -/
def nullIdRec : Record := [("id", JValue.null)]

/-- C1: the filter parser returns the string-equality predicate
{field: outlet, value: Airport} on the quoted sample, the number-equality
predicate {field: id, value: 42} on `id eq 42`, the date predicate
{field: date, value: 2025-08-01} on `date eq 2025-08-01`, and `null` for
every input whose trimmed form matches none of the three grammar forms. -/
theorem parseSimpleFilter_spec :
    parseSimpleFilter (some airportFilter) =
      some ⟨"outlet", .str "Airport", .string⟩ ∧
    parseSimpleFilter (some "id eq 42") = some ⟨"id", .num 42, .number⟩ ∧
    parseSimpleFilter (some "date eq 2025-08-01") =
      some ⟨"date", .str "2025-08-01", .date⟩ ∧
    ∀ s : String, matchStringForm (trimJs s.data) = none →
      matchNumberForm (trimJs s.data) = none →
      matchDateForm (trimJs s.data) = none →
      parseSimpleFilter (some s) = none := by
  refine ⟨by decide, by decide, by decide, ?_⟩
  intro s h1 h2 h3
  by_cases hs : s = "" <;> simp [parseSimpleFilter, hs, h1, h2, h3]

/-- Witness for C1 at the input `bogus`, which matches no grammar form. -/
theorem parseSimpleFilter_spec_witness :
    matchStringForm (trimJs ("bogus").data) = none ∧
    matchNumberForm (trimJs ("bogus").data) = none ∧
    matchDateForm (trimJs ("bogus").data) = none ∧
    parseSimpleFilter (some "bogus") = none :=
  ⟨by decide, by decide, by decide,
    parseSimpleFilter_spec.2.2.2 "bogus" (by decide) (by decide) (by decide)⟩

/-- C2: for every raw input record the normalizer emits exactly the 12
declared keys in order (extra input fields are dropped and the function is
total), and every numeric field whose input is absent, null, or the empty
string normalizes to null. -/
theorem normalizeItem_spec :
    ∀ item : RawItem,
      (normalizeItem item).map Prod.fst = declaredKeys ∧
      ∀ k ∈ numericKeys,
        (item k = .undefined ∨ item k = .null ∨ item k = .str "") →
        getField (normalizeItem item) k = .null := by
  intro item
  refine ⟨rfl, ?_⟩
  intro k hk hv
  fin_cases hk <;> rcases hv with h | h | h <;>
    simp [normalizeItem, getField, toNum, h]

/-- Witness for C2 at a record with an empty-string `id` and nothing else. -/
theorem normalizeItem_spec_witness :
    (normalizeItem item0).map Prod.fst = declaredKeys ∧
    getField (normalizeItem item0) "id" = .null :=
  ⟨(normalizeItem_spec item0).1,
   (normalizeItem_spec item0).2 "id" (by decide) (Or.inr (Or.inr (by decide)))⟩

/-- C3: the pipeline is the sequential composition filter, then order, then
skip, then top; on records with ids 1..5, `$orderby=id desc`, `$skip=1`,
`$top=2` yield the records with ids 4 and 3. -/
theorem runQuery_stage_order :
    (∀ (f ob sk tp : Option String) (items : List Record),
      runQuery f ob sk tp items =
        applyTop tp (applySkip sk (applyOrder ob (applyFilterStr f items)))) ∧
    runQuery none (some "id desc") (some "1") (some "2") fiveRecs =
      [mkIdRec 4, mkIdRec 3] := by
  exact ⟨fun f ob sk tp items => rfl, by decide⟩

/-- C4: the response count is present exactly when the raw `$count` value is
the string `true`, and it always equals the length of the post-paging result
set; with the five sample records and `$top=2` both the value length and the
count are 2. -/
theorem odata_count_spec :
    (∀ (f ob sk tp c : Option String) (items : List Record),
      ((odataCount c (runQuery f ob sk tp items)).isSome ↔ c = some "true") ∧
      ∀ n, odataCount c (runQuery f ob sk tp items) = some n →
        n = (runQuery f ob sk tp items).length) ∧
    (runQuery none none none (some "2") fiveRecs).length = 2 ∧
    odataCount (some "true") (runQuery none none none (some "2") fiveRecs) =
      some 2 := by
  refine ⟨?_, by decide, by decide⟩
  intro f ob sk tp c items
  by_cases hc : c = some "true" <;> simp [odataCount, hc]

/-- Witness for C4: the count hypothesis discharged on the sample. -/
theorem odata_count_spec_witness :
    (2 : Nat) = (runQuery none none none (some "2") fiveRecs).length :=
  (odata_count_spec.1 none none none (some "2") (some "true") fiveRecs).2 2
    (by decide)

/-- C5 counterexample: a negative `$skip` is not treated as zero — on the
five sample records, `$skip=-2` keeps the last two records instead of
passing the sequence through unchanged. -/
theorem applySkip_negative_cex :
    applySkip (some "-2") fiveRecs = [mkIdRec 4, mkIdRec 5] ∧
    applySkip (some "-2") fiveRecs ≠ fiveRecs := by
  exact ⟨by decide, by decide⟩

/-- C5 amended: a NaN skip value leaves the sequence unchanged; a skip count
at least the sequence length yields the empty sequence; a negative skip
count keeps only the last `min |skip| length` records (JS slice semantics
for a negative start index), rather than being treated as zero. -/
theorem applySkip_amended :
    ∀ (s : String) (items : List Record),
      (strToNumber s = .nan → s ≠ "" → applySkip (some s) items = items) ∧
      (∀ q : ℚ, strToNumber s = .num q → (items.length : Int) ≤ truncRat q →
        applySkip (some s) items = []) ∧
      (∀ q : ℚ, strToNumber s = .num q → truncRat q < 0 →
        applySkip (some s) items =
          items.drop (items.length - min (truncRat q).natAbs items.length)) := by
  intro s items
  by_cases hs : s = ""
  · subst hs
    have he : strToNumber "" = JsNum.num 0 := by decide
    refine ⟨fun _ hne => absurd rfl hne, ?_, ?_⟩
    · intro q hq hlen
      have hq0 : (0 : ℚ) = q := by
        have h2 := he.symm.trans hq
        injection h2
      subst hq0
      rw [show truncRat 0 = 0 from by decide] at hlen
      have hl0 : items.length = 0 := by omega
      simp [applySkip, List.length_eq_zero.mp hl0]
    · intro q hq hneg
      have hq0 : (0 : ℚ) = q := by
        have h2 := he.symm.trans hq
        injection h2
      subst hq0
      rw [show truncRat 0 = 0 from by decide] at hneg
      exact absurd hneg (by omega)
  · refine ⟨?_, ?_, ?_⟩
    · intro h _
      simp [applySkip, hs, jsSliceDrop, h, sliceBound]
    · intro q hq hlen
      simp only [applySkip, if_neg hs, jsSliceDrop, hq, sliceBound]
      have hpos : ¬ truncRat q < 0 := by omega
      rw [if_neg hpos]
      have hm : min (truncRat q).toNat items.length = items.length := by omega
      rw [hm, List.drop_length]
    · intro q hq hneg
      simp only [applySkip, if_neg hs, jsSliceDrop, hq, sliceBound]
      rw [if_pos hneg]
      congr 1
      omega

/-- C5 amended witness: NaN, overlong, and negative skips on the sample. -/
theorem applySkip_amended_witness :
    applySkip (some "abc") fiveRecs = fiveRecs ∧
    applySkip (some "7") fiveRecs = [] ∧
    applySkip (some "-2") fiveRecs =
      fiveRecs.drop (fiveRecs.length - min (truncRat (-2)).natAbs fiveRecs.length) :=
  ⟨(applySkip_amended "abc" fiveRecs).1 (by decide) (by decide),
   (applySkip_amended "7" fiveRecs).2.1 7 (by decide) (by decide),
   (applySkip_amended "-2" fiveRecs).2.2 (-2) (by decide) (by decide)⟩

/-- C6 counterexample: on the order spec `id desc x`, the code splits on
every space and reads the second piece `desc`, sorting descending, while
splitting on the first whitespace gives the direction token `desc x`, which
is not exactly `desc`, so the claimed behavior sorts ascending — the two
disagree on records with ids 1 and 2. -/
theorem applyOrder_claim_cex :
    applyOrder (some "id desc x") [mkIdRec 1, mkIdRec 2] =
      [mkIdRec 2, mkIdRec 1] ∧
    claimedApplyOrder "id desc x" [mkIdRec 1, mkIdRec 2] =
      [mkIdRec 1, mkIdRec 2] ∧
    applyOrder (some "id desc x") [mkIdRec 1, mkIdRec 2] ≠
      claimedApplyOrder "id desc x" [mkIdRec 1, mkIdRec 2] := by
  exact ⟨by decide, by decide, by decide⟩

/-- C6 amended: a truthy order spec is split on every space character; the
field is the first piece and the direction the second piece (absent when
there is only one piece); the sort is descending exactly when the second
piece is the string `desc` (case-sensitively), ascending in every other
case; pieces beyond the second are ignored. -/
theorem applyOrder_amended :
    ∀ (s : String) (items : List Record), s ≠ "" →
      applyOrder (some s) items =
        sortByDir (((splitChar ' ' s.data).map List.asString).headD "")
          (if ((splitChar ' ' s.data).map List.asString)[1]? = some "desc"
            then SortDir.desc else SortDir.asc) items := by
  intro s items hs
  by_cases hd : ((splitChar ' ' s.data).map List.asString)[1]? = some "desc"
  · simp only [applyOrder, sortByDir]
    rw [if_neg hs, if_pos hd, if_pos hd]
  · simp only [applyOrder, sortByDir]
    rw [if_neg hs, if_neg hd, if_neg hd]

/-- C6 amended witness: `id Desc` is not the exact token `desc`, so the
sort is ascending. -/
theorem applyOrder_amended_witness :
    applyOrder (some "id Desc") [mkIdRec 2, mkIdRec 1] =
      sortByDir (((splitChar ' ' ("id Desc").data).map List.asString).headD "")
        (if ((splitChar ' ' ("id Desc").data).map List.asString)[1]? = some "desc"
          then SortDir.desc else SortDir.asc) [mkIdRec 2, mkIdRec 1] :=
  applyOrder_amended "id Desc" [mkIdRec 2, mkIdRec 1] (by decide)

/-- C7: a non-2xx upstream response is surfaced as HTTP 500 with the
error string `Upstream API error` and the upstream status, and an aborted
(timed-out) fetch as HTTP 504 with `Upstream timeout`, for every
combination of query parameters. -/
theorem upstream_error_spec :
    (∀ (st : Nat) (data : Option (List RawItem)) (f ob sk tp c : Option String),
      ¬(200 ≤ st ∧ st < 300) →
      handleTransactions (.response st data) f ob sk tp c =
        ⟨500, .jsonError "Upstream API error" (some st)⟩) ∧
    (∀ (f ob sk tp c : Option String),
      handleTransactions .abortError f ob sk tp c =
        ⟨504, .jsonError "Upstream timeout" none⟩) := by
  constructor
  · intro st data f ob sk tp c h
    simp only [handleTransactions]
    rw [if_neg h]
  · intro f ob sk tp c
    rfl

/-- C7 witness: an upstream 503 with no query parameters. -/
theorem upstream_error_spec_witness :
    handleTransactions (.response 503 none) none none none none none =
      ⟨500, .jsonError "Upstream API error" (some 503)⟩ :=
  upstream_error_spec.1 503 none none none none none none (by decide)

/-- C8 counterexample: a malformed (non-numeric) `$top` does not degrade to
a no-op — `Number` gives NaN, the slice end clamps to 0 and the result set
is empty instead of the unchanged one-record list. -/
theorem applyTop_noop_cex :
    strToNumber "abc" = JsNum.nan ∧
    applyTop (some "abc") [mkIdRec 1] = [] ∧
    applyTop (some "abc") [mkIdRec 1] ≠ [mkIdRec 1] := by
  exact ⟨by decide, by decide, by decide⟩

/-- C8 amended: the pipeline is a total function that always produces a
result set (never throws); an unparseable `$filter` and a NaN `$skip`
degrade to no-ops for their stages, but a NaN `$top` clamps to zero and
produces the empty result set rather than a no-op. -/
theorem pipeline_total_amended :
    ∀ (f ob sk tp : Option String) (items : List Record),
      runQuery f ob sk tp items =
        applyTop tp (applySkip sk (applyOrder ob (applyFilterStr f items))) ∧
      (parseSimpleFilter f = none → applyFilterStr f items = items) ∧
      (∀ s, sk = some s → s ≠ "" → strToNumber s = .nan →
        applySkip sk items = items) ∧
      (∀ s, tp = some s → s ≠ "" → strToNumber s = .nan →
        applyTop tp items = []) := by
  intro f ob sk tp items
  refine ⟨rfl, ?_, ?_, ?_⟩
  · intro h
    simp [applyFilterStr, h]
  · rintro s rfl hs hn
    simp [applySkip, hs, jsSliceDrop, hn, sliceBound]
  · rintro s rfl hs hn
    simp [applyTop, hs, jsSliceTake, hn, sliceBound]

/-- C8 amended witness: malformed filter and skip are no-ops, malformed top
empties the result, on the sample records. -/
theorem pipeline_total_amended_witness :
    applyFilterStr (some "garbage") fiveRecs = fiveRecs ∧
    applySkip (some "zz") fiveRecs = fiveRecs ∧
    applyTop (some "zz") fiveRecs = [] :=
  ⟨(pipeline_total_amended (some "garbage") none (some "zz") (some "zz") fiveRecs).2.1
      (by decide),
   (pipeline_total_amended (some "garbage") none (some "zz") (some "zz") fiveRecs).2.2.1
      "zz" rfl (by decide) (by decide),
   (pipeline_total_amended (some "garbage") none (some "zz") (some "zz") fiveRecs).2.2.2
      "zz" rfl (by decide) (by decide)⟩

/-- C9 counterexample: with no `$filter` present, the sort stage reorders
the normalized source array in place — after `$orderby=id` on normalized
records with ids 2,1 the normalized array itself ends up sorted, so it is
not unchanged. -/
theorem pipeline_mutation_cex :
    (runQueryAlias none (some "id") none none [mkIdRec 2, mkIdRec 1]).normalized =
      [mkIdRec 1, mkIdRec 2] ∧
    (runQueryAlias none (some "id") none none [mkIdRec 2, mkIdRec 1]).normalized ≠
      [mkIdRec 2, mkIdRec 1] := by
  exact ⟨by decide, by decide⟩

/-- C9 amended: filter, skip, and top return fresh collections, but the
order stage sorts the current array in place; the resulting current array
always carries the pipeline's result, and the normalized source sequence is
unchanged whenever a filter predicate was parsed (the in-place sort then
only touches the filter's fresh array); without a filter, `$orderby` may
reorder the normalized sequence itself. -/
theorem pipeline_alias_amended :
    ∀ (f ob sk tp : Option String) (norm : List Record),
      (runQueryAlias f ob sk tp norm).current = runQuery f ob sk tp norm ∧
      (parseSimpleFilter f ≠ none →
        (runQueryAlias f ob sk tp norm).normalized = norm) := by
  intro f ob sk tp norm
  rcases hf : parseSimpleFilter f with _ | pf <;>
    rcases ob with _ | s1 <;> rcases sk with _ | s2 <;> rcases tp with _ | s3 <;>
    simp [runQueryAlias, runQuery, hf] <;>
    split_ifs <;>
    simp

/-- C9 amended witness: with the filter `id eq 1` present, sorting leaves
the normalized array unchanged. -/
theorem pipeline_alias_amended_witness :
    (runQueryAlias (some "id eq 1") (some "id") none none
        [mkIdRec 2, mkIdRec 1]).current =
      runQuery (some "id eq 1") (some "id") none none [mkIdRec 2, mkIdRec 1] ∧
    (runQueryAlias (some "id eq 1") (some "id") none none
        [mkIdRec 2, mkIdRec 1]).normalized = [mkIdRec 2, mkIdRec 1] :=
  ⟨(pipeline_alias_amended (some "id eq 1") (some "id") none none
      [mkIdRec 2, mkIdRec 1]).1,
   (pipeline_alias_amended (some "id eq 1") (some "id") none none
      [mkIdRec 2, mkIdRec 1]).2 (by decide)⟩

/-- C10: a number-equality predicate with value 0 (as produced for
`id eq 0`) retains every record whose targeted field is null, because the
filter converts the field value with `Number` and `Number(null)` is 0. -/
theorem numberFilter_null_spec :
    parseSimpleFilter (some "id eq 0") = some ⟨"id", .num 0, .number⟩ ∧
    ∀ (r : Record) (fld : String), getField r fld = JValue.null →
      matchesFilter ⟨fld, .num 0, .number⟩ r = true := by
  refine ⟨by decide, ?_⟩
  intro r fld h
  simp [matchesFilter, h, jsToNumber, jsStrictEqNum]

/-- C10 witness: a record with a null `id` passes the `id eq 0` filter. -/
theorem numberFilter_null_spec_witness :
    getField nullIdRec "id" = JValue.null ∧
    matchesFilter ⟨"id", .num 0, .number⟩ nullIdRec = true :=
  ⟨by decide, numberFilter_null_spec.2 nullIdRec "id" (by decide)⟩

end ODataConv
